import Mathlib

/-!
Verification of the boxing-gym email agent's classification-and-reconciliation
pipeline: a shallow embedding in Lean 4 of the Python sources
`src/agents/boxing_gym_agent.py`, `src/services/calendar_service.py`,
`src/services/llm_service.py` and `src/models/email_models.py`, together with
theorems settling the specified properties (idempotent processing, error
handling, the tolerant date/time normalizer, the confidence gate, the
classifier-boundary normalization, and duplicate-event suppression).

Strings are modelled by Lean `String`, with the Python string operations the
code uses (strip, split, replace, containment, int/float conversion)
re-implemented over the underlying character lists so that every definition
is executable and kernel-reducible.  Python exceptions are modelled by
`Option`/`Except`: `none`/`.error` marks an exception propagating to the
enclosing handler.  Machine floats carrying confidence scores are modelled by
`ℚ` (no float-specific behaviour is relied on by the code under study).
-/

/-! ## Python string primitives (over character lists) -/

/-- Python `sub in s` substring test, on character lists. -/
def listHasInfix (pat : List Char) : List Char → Bool
  | [] => pat.isPrefixOf []
  | c :: rest => pat.isPrefixOf (c :: rest) || listHasInfix pat rest

/-- Python `sub in s` substring containment test on strings. -/
def strContains (s sub : String) : Bool :=
  listHasInfix sub.data s.data

/-- Python `s.strip()` (also modelling `str.strip` of f-string pieces):
drop ASCII whitespace from both ends. -/
def pyStripL (l : List Char) : List Char :=
  ((l.dropWhile Char.isWhitespace).reverse.dropWhile Char.isWhitespace).reverse

/-- Python `s.strip()` on strings. -/
def pyStrip (s : String) : String :=
  ⟨pyStripL s.data⟩

/-- `s.startswith(p)` on strings. -/
def pyStartsWith (s p : String) : Bool :=
  p.data.isPrefixOf s.data

/-- `s.endswith(p)` on strings. -/
def pyEndsWith (s p : String) : Bool :=
  p.data.reverse.isPrefixOf s.data.reverse

/-- `s[n:]` (drop the first `n` characters). -/
def pyDrop (s : String) (n : Nat) : String :=
  ⟨s.data.drop n⟩

/-- `s[:-n]` (drop the last `n` characters). -/
def pyDropRight (s : String) (n : Nat) : String :=
  ⟨s.data.reverse.drop n |>.reverse⟩

/-- `c in s` single-character containment. -/
def pyHasChar (s : String) (c : Char) : Bool :=
  s.data.contains c

/-- `split(sep)[0]` for a (non-empty) string separator: the text before the
first occurrence of `sep`, or all of `s` when `sep` does not occur. -/
def takeUntilSep (sep : List Char) : List Char → List Char
  | [] => []
  | c :: rest =>
      if sep.isPrefixOf (c :: rest) then []
      else c :: takeUntilSep sep rest

/-- The leading segment of a title: Python `s.split(' - ')[0]`. -/
def leadingSegment (s : String) : String :=
  ⟨takeUntilSep " - ".data s.data⟩

/-- Python `s.replace(pat, '')` for a non-empty `pat`: delete every
(non-overlapping, leftmost-first) occurrence.  `fuel` bounds the recursion;
callers pass the length of the subject, which always suffices. -/
def pyDeleteAux (pat : List Char) : Nat → List Char → List Char
  | _, [] => []
  | 0, l => l
  | fuel + 1, c :: rest =>
      if pat.isPrefixOf (c :: rest) ∧ pat ≠ [] then
        pyDeleteAux pat fuel ((c :: rest).drop pat.length)
      else
        c :: pyDeleteAux pat fuel rest

/-- Python `s.replace(pat, '')` on strings. -/
def pyDelete (s pat : String) : String :=
  ⟨pyDeleteAux pat.data s.data.length s.data⟩

/-- Python `s.lower()` (ASCII case folding suffices for the code's uses). -/
def pyLower (s : String) : String :=
  ⟨s.data.map Char.toLower⟩

/-- Decimal digit test. -/
def isDigitChar (c : Char) : Bool :=
  '0' ≤ c && c ≤ '9'

/-- Numeric value of decimal digits. -/
def digitsToNat (l : List Char) : Nat :=
  l.foldl (fun acc c => acc * 10 + (c.toNat - '0'.toNat)) 0

/-- Python `int(s)`: optional surrounding whitespace, optional sign, at
least one digit; anything else raises `ValueError` (= `none`). -/
def pyInt (s : String) : Option Int :=
  let l := pyStripL s.data
  match l with
  | '-' :: ds =>
      if ds ≠ [] ∧ ds.all isDigitChar then some (-(digitsToNat ds : Int)) else none
  | '+' :: ds =>
      if ds ≠ [] ∧ ds.all isDigitChar then some (digitsToNat ds : Int) else none
  | ds =>
      if ds ≠ [] ∧ ds.all isDigitChar then some (digitsToNat ds : Int) else none

/-- Python `float(s)` restricted to the plain decimal forms the pipeline can
meet: optional sign, digits, optional fractional part.  Anything else raises
`ValueError` (= `none`). -/
def pyFloatStr (s : String) : Option ℚ :=
  let l := pyStripL s.data
  let core : List Char → Option ℚ := fun ds =>
    match List.splitOn '.' ds with
    | [ip] =>
        if ip ≠ [] ∧ ip.all isDigitChar then some (digitsToNat ip : ℚ) else none
    | [ip, fp] =>
        if (ip ≠ [] ∨ fp ≠ []) ∧ ip.all isDigitChar ∧ fp.all isDigitChar then
          some ((digitsToNat ip : ℚ) + (digitsToNat fp : ℚ) / ((10 : ℚ) ^ fp.length))
        else none
    | _ => none
  match l with
  | '-' :: ds => (core ds).map (fun q => -q)
  | '+' :: ds => core ds
  | ds => core ds

/-- Python `s.split(c)` for a single-character separator (keeps empties). -/
def pySplitChar (s : String) (c : Char) : List (List Char) :=
  List.splitOn c s.data

/-- Python `s.split()` with no argument: split on whitespace runs, dropping
empty pieces. -/
def pySplitWs (l : List Char) : List (List Char) :=
  (List.splitOnP (fun c => Char.isWhitespace c) l).filter (fun p => p ≠ [])

/-! ## Date-time model

Python `datetime` values are modelled by explicit fields.  Construction of an
invalid date or time raises `ValueError` in Python; the smart constructors
below return `none` in exactly those cases. -/

structure PyDate where
  year : Nat
  month : Nat
  day : Nat
deriving DecidableEq, Repr

structure PyDateTime where
  year : Nat
  month : Nat
  day : Nat
  hour : Nat
  minute : Nat
deriving DecidableEq, Repr

/-- Gregorian leap-year test. -/
def isLeapYear (y : Nat) : Bool :=
  (y % 4 = 0 && y % 100 ≠ 0) || y % 400 = 0

/-- Days in a month (months numbered 1–12). -/
def daysInMonth (y m : Nat) : Nat :=
  if m = 2 then (if isLeapYear y then 29 else 28)
  else if m = 4 ∨ m = 6 ∨ m = 9 ∨ m = 11 then 30
  else 31

/-- Validity of a date (the `datetime` constructor's acceptance condition,
minus the year-9999 ceiling, which no claim exercises). -/
def DateOk (d : PyDate) : Prop :=
  1 ≤ d.year ∧ 1 ≤ d.month ∧ d.month ≤ 12 ∧ 1 ≤ d.day ∧ d.day ≤ daysInMonth d.year d.month

instance (d : PyDate) : Decidable (DateOk d) := by
  unfold DateOk; infer_instance

/-- Validity of a date-time value. -/
def DTOk (t : PyDateTime) : Prop :=
  1 ≤ t.year ∧ 1 ≤ t.month ∧ t.month ≤ 12 ∧ 1 ≤ t.day ∧
    t.day ≤ daysInMonth t.year t.month ∧ t.hour < 24 ∧ t.minute < 60

instance (t : PyDateTime) : Decidable (DTOk t) := by
  unfold DTOk; infer_instance

/-- `datetime(year, month, day)`: `ValueError` (= `none`) outside the valid
ranges (Python also requires `year ≤ 9999`, kept here for fidelity). -/
def mkDate (y m d : Int) : Option PyDate :=
  if 1 ≤ y ∧ y ≤ 9999 ∧ 1 ≤ m ∧ m ≤ 12 ∧ 1 ≤ d ∧
      d ≤ (daysInMonth y.toNat m.toNat : Int) then
    some ⟨y.toNat, m.toNat, d.toNat⟩
  else none

/-- `time.replace(hour=h, minute=mi)`: `ValueError` (= `none`) outside
0–23 / 0–59. -/
def mkTimeHM (h mi : Int) : Option (Nat × Nat) :=
  if 0 ≤ h ∧ h < 24 ∧ 0 ≤ mi ∧ mi < 60 then some (h.toNat, mi.toNat) else none

/-- `datetime.combine(date, time)`. -/
def combineDT (d : PyDate) (h mi : Nat) : PyDateTime :=
  ⟨d.year, d.month, d.day, h, mi⟩

/-- The date part of a date-time (`datetime.date()`). -/
def dateOf (t : PyDateTime) : PyDate :=
  ⟨t.year, t.month, t.day⟩

/-- The next calendar day. -/
def addOneDay (d : PyDate) : PyDate :=
  if d.day < daysInMonth d.year d.month then ⟨d.year, d.month, d.day + 1⟩
  else if d.month < 12 then ⟨d.year, d.month + 1, 1⟩
  else ⟨d.year + 1, 1, 1⟩

/-- Add `n` calendar days. -/
def addDays (d : PyDate) : Nat → PyDate
  | 0 => d
  | n + 1 => addDays (addOneDay d) n

/-- The previous calendar day (for negative `timedelta` arithmetic). -/
def subOneDay (d : PyDate) : PyDate :=
  if 1 < d.day then ⟨d.year, d.month, d.day - 1⟩
  else if 1 < d.month then ⟨d.year, d.month - 1, daysInMonth d.year (d.month - 1)⟩
  else ⟨d.year - 1, 12, 31⟩

/-- Subtract `n` calendar days. -/
def subDays (d : PyDate) : Nat → PyDate
  | 0 => d
  | n + 1 => subDays (subOneDay d) n

/-- `dt + timedelta(minutes=k)` for `k ≥ 0`. -/
def addMinutes (t : PyDateTime) (k : Nat) : PyDateTime :=
  let total := t.hour * 60 + t.minute + k
  let d := addDays (dateOf t) (total / 1440)
  ⟨d.year, d.month, d.day, (total % 1440) / 60, (total % 1440) % 60⟩

/-- `dt + timedelta(minutes=k)` for arbitrary (possibly negative) `k`. -/
def addMinutesI (t : PyDateTime) (k : Int) : PyDateTime :=
  if 0 ≤ k then addMinutes t k.toNat
  else
    let back := (-k).toNat
    let tot : Int := (t.hour * 60 + t.minute : Int) - back
    let dayBack := ((1440 - 1 : Int) - tot).toNat / 1440
    let rem := (t.hour * 60 + t.minute + dayBack * 1440) - back
    let d := subDays (dateOf t) dayBack
    ⟨d.year, d.month, d.day, rem / 60, rem % 60⟩

/-- Linearization of a date used for chronological comparison: on valid
dates it induces exactly the calendar order. -/
def dateIdx (d : PyDate) : Nat :=
  (d.year * 12 + (d.month - 1)) * 31 + (d.day - 1)

/-- Linearization of a date-time (minutes on a 31-day-month grid). -/
def dtKey (t : PyDateTime) : Nat :=
  dateIdx (dateOf t) * 1440 + t.hour * 60 + t.minute

/-- Chronological strict order on the model's date-times. -/
def dtLtB (a b : PyDateTime) : Bool :=
  Nat.blt (dtKey a) (dtKey b)

/-- `datetime.now()` / "today" in the model is an explicit parameter; its
"tomorrow at 18:00" (the parser's terminal fallback
`now.replace(hour=18, minute=0) + timedelta(days=1)`). -/
def tomorrowAt18 (now : PyDateTime) : PyDateTime :=
  let d := addOneDay (dateOf now)
  ⟨d.year, d.month, d.day, 18, 0⟩

/-! ## Data model (`src/models/email_models.py`) -/

/-- `ClassDetails`: every field optional; absence is expected. -/
structure ClassDetails where
  class_name : Option String := none
  date : Option String := none
  time : Option String := none
  instructor : Option String := none
  location : Option String := none
  class_type : Option String := none
  difficulty : Option String := none
  duration_minutes : Option Int := none
  equipment_needed : Option (List String) := none
  notes : Option String := none
deriving DecidableEq, Repr

/-- `EmailMetadata`.  The `date` field (a `datetime` in the source) only ever
reaches the classification prompt through its string rendering, so it is
carried here as that rendered string. -/
structure EmailMetadata where
  id : String
  thread_id : String
  subject : String
  from_email : String
  to_email : String
  date : String
  snippet : String
  body : String
deriving DecidableEq, Repr

/-- `EmailClassification` (the pydantic model places no enumeration
constraint on `email_type` / `action_required`: they are plain strings). -/
structure EmailClassification where
  email_type : String
  confidence : ℚ
  class_details : Option ClassDetails := none
  action_required : String
  form_links : Option (List String) := none
  registration_url : Option String := none
  reasoning : String
deriving DecidableEq, Repr

/-- `ProcessedEmail` (the `processed_at` clock field plays no role in any
claim and is omitted). -/
structure ProcessedEmail where
  metadata : EmailMetadata
  classification : EmailClassification
deriving DecidableEq, Repr

/-- Settings fields the pipeline under study reads (defaults as in
`src/config/settings.py`). -/
structure Settings where
  boxing_gym_name : String := "Boxing Gym"
  gmail_user_email : String := "user@example.com"
  event_duration_minutes : Nat := 60
  confidence_threshold : ℚ := 7/10
  enable_auto_registration : Bool := false
  enable_calendar_creation : Bool := true
deriving Repr

/-! ## Temporal normalizer (`CalendarService._parse_class_time`) -/

/-- Python truthiness of an optional string (`if x:`). -/
def truthyStr (o : Option String) : Bool :=
  match o with
  | none => false
  | some s => s ≠ ""

/-- The fixed month table of the `"Weekday, Month Day"` branch. -/
def monthTable : List (String × Nat) :=
  [("January", 1), ("February", 2), ("March", 3), ("April", 4), ("May", 5),
   ("June", 6), ("July", 7), ("August", 8), ("September", 9), ("October", 10),
   ("November", 11), ("December", 12)]

/-- `datetime.fromisoformat` restricted to the `YYYY-MM-DD` date form (the
only form this pipeline feeds it); failure raises `ValueError` (= `none`). -/
def fromIso (s : String) : Option PyDate :=
  match pySplitChar s '-' with
  | [y, m, d] =>
      if y.length = 4 ∧ m.length = 2 ∧ d.length = 2 ∧
          y.all isDigitChar ∧ m.all isDigitChar ∧ d.all isDigitChar then
        mkDate (digitsToNat y) (digitsToNat m) (digitsToNat d)
      else none
  | _ => none

/-- The `"Weekday, Month Day"` parse wrapped in the source's inner
`try`/`except (ValueError, KeyError)`: `none` here is the caught case, which
the caller turns into today's date.  The year is the literal `2024` from the
source (`# Assume 2024 for boxing classes (current year)`). -/
def commaDateParse (dateStr : String) : Option PyDate :=
  match pySplitChar dateStr ',' with
  | _ :: p1 :: _ =>
      match pySplitWs (pyStripL p1) with
      | [monthName, day] =>
          let monthNum := (monthTable.lookup (⟨monthName⟩ : String)).getD 1
          match pyInt ⟨day⟩ with
          | some d => mkDate 2024 monthNum d
          | none => none
      | _ => none
  | _ => none

/-- The date half of `_parse_class_time`.  `none` models a `ValueError`
escaping to the function's outer handler; branch-local fallbacks to today's
date are resolved here, exactly as in the source. -/
def parseDatePart (ds : Option String) (now : PyDateTime) : Option PyDate :=
  if truthyStr ds then
    let dateStr := pyStrip (ds.getD "")
    if pyHasChar dateStr '/' then
      match pySplitChar dateStr '/' with
      | [m, d, y] =>
          match pyInt ⟨y⟩, pyInt ⟨m⟩, pyInt ⟨d⟩ with
          | some yi, some mi, some di => mkDate yi mi di
          | _, _, _ => none
      | _ => none
    else if pyHasChar dateStr '-' then
      fromIso dateStr
    else if pyHasChar dateStr ',' ∧
        (monthTable.any (fun p => strContains dateStr p.1)) then
      some ((commaDateParse dateStr).getD (dateOf now))
    else
      some ((fromIso dateStr).getD (dateOf now))
  else
    some (dateOf now)

/-- The time half of `_parse_class_time`, applied to the resolved date.
`none` models a `ValueError` escaping to the outer handler. -/
def parseTimePart (ts : Option String) (dateObj : PyDate) : Option PyDateTime :=
  if truthyStr ts then
    let timeStr := pyStrip (ts.getD "")
    if pyHasChar timeStr ':' then
      let lower := pyLower timeStr
      if strContains lower "am" || strContains lower "pm" then
        let timePart :=
          pyStrip (pyDelete (pyDelete (pyDelete (pyDelete timeStr "am") "pm") "AM") "PM")
        match pySplitChar timePart ':' with
        | [hs, ms] =>
            match pyInt ⟨hs⟩, pyInt ⟨ms⟩ with
            | some h, some mi =>
                let h := if strContains lower "pm" ∧ h ≠ 12 then h + 12
                         else if strContains lower "am" ∧ h = 12 then 0
                         else h
                (mkTimeHM h mi).map (fun hm => combineDT dateObj hm.1 hm.2)
            | _, _ => none
        | _ => none
      else
        match pySplitChar timeStr ':' with
        | [hs, ms] =>
            match pyInt ⟨hs⟩, pyInt ⟨ms⟩ with
            | some h, some mi =>
                (mkTimeHM h mi).map (fun hm => combineDT dateObj hm.1 hm.2)
            | _, _ => none
        | _ => none
    else
      match pyInt timeStr with
      | some h =>
          let h := if h < 12 then h + 12 else h
          (mkTimeHM h 0).map (fun hm => combineDT dateObj hm.1 hm.2)
      | none => none
  else
    some (combineDT dateObj 18 0)

/-- The body of `_parse_class_time`'s outer `try`: `none` is a parse
exception reaching the outer `except (ValueError, AttributeError)`. -/
def parseClassTimeBody (cd : ClassDetails) (now : PyDateTime) : Option PyDateTime :=
  (parseDatePart cd.date now).bind (fun d => parseTimePart cd.time d)

/-- `CalendarService._parse_class_time`: total; the outer handler converts
any escaped parse exception into tomorrow at 18:00. -/
def parseClassTime (cd : ClassDetails) (now : PyDateTime) : PyDateTime :=
  (parseClassTimeBody cd now).getD (tomorrowAt18 now)

/-! ## Event materializer (`CalendarService`) -/

/-- A calendar entry as this pipeline sees it (summary, description, start,
end, location). -/
structure GEvent where
  summary : String
  description : String
  startTime : PyDateTime
  endTime : PyDateTime
  location : String
deriving DecidableEq, Repr

/-- Python `x or dflt` on an optional string field. -/
def orStr (o : Option String) (dflt : String) : String :=
  match o with
  | some s => if s = "" then dflt else s
  | none => dflt

/-- `class_details.duration_minutes or settings.event_duration_minutes`
(Python `or`: `None` and `0` both fall back to the configured default). -/
def effectiveDuration (s : Settings) (cd : ClassDetails) : Int :=
  match cd.duration_minutes with
  | none => (s.event_duration_minutes : Int)
  | some k => if k = 0 then (s.event_duration_minutes : Int) else k

/-- Concatenate with a separator (Python `sep.join`). -/
def joinSep (sep : String) : List String → String
  | [] => ""
  | [x] => x
  | x :: rest => x ++ sep ++ joinSep sep rest

/-- `CalendarService._build_event_description`. -/
def buildEventDescription (cd : ClassDetails) (emailId : String) : String :=
  let parts :=
    ["Boxing class registration confirmed.", ""]
    ++ (match cd.instructor with
        | some s => if s = "" then [] else ["Instructor: " ++ s]
        | none => [])
    ++ (match cd.class_type with
        | some s => if s = "" then [] else ["Class Type: " ++ s]
        | none => [])
    ++ (match cd.difficulty with
        | some s => if s = "" then [] else ["Difficulty: " ++ s]
        | none => [])
    ++ (match cd.equipment_needed with
        | some l => if l = [] then [] else ["Equipment: " ++ joinSep ", " l]
        | none => [])
    ++ (match cd.notes with
        | some s => if s = "" then [] else ["Notes: " ++ s]
        | none => [])
    ++ ["", "Registered via Boxing Gym Agent", "Email ID: " ++ emailId]
  joinSep "\n" parts

/-- `CalendarService._build_event_details`: the draft entry. -/
def buildEventDetails (s : Settings) (cd : ClassDetails) (emailId : String)
    (now : PyDateTime) : GEvent :=
  let startT := parseClassTime cd now
  let endT := addMinutesI startT (effectiveDuration s cd)
  { summary := orStr cd.class_name "Boxing Class" ++ " - " ++ s.boxing_gym_name
    description := buildEventDescription cd emailId
    startTime := startT
    endTime := endT
    location := orStr cd.location s.boxing_gym_name }

/-- `CalendarService._event_exists`, applied to the result of the provider
query (`Except.error` = the query raised): the catch-all returns `false`
(assume no duplicate); otherwise an existing entry counts as a duplicate when
the draft summary's leading segment (`summary.split(' - ')[0]`) occurs as a
substring of that entry's summary. -/
def eventExists (draft : GEvent) (queryResult : Except String (List GEvent)) : Bool :=
  match queryResult with
  | .error _ => false
  | .ok events =>
      let className := leadingSegment draft.summary
      events.any (fun e => strContains e.summary className)

/-- Modelled from the spec: the calendar collaborator's `events.list`
query, absent from `src/` (it is a Google API call) — it returns the stored
entries overlapping the `[timeMin, timeMax)` window. -/
def calQuery (cal : List GEvent) (tmin tmax : PyDateTime) : List GEvent :=
  cal.filter (fun e => dtLtB tmin e.endTime && dtLtB e.startTime tmax)

/-- `CalendarService.create_class_event` against a calendar state holding
the provider's entries.  `queryError = some e` makes the duplicate-check
query raise (the create itself is taken in its success mode, which is the
mode every settled claim speaks about).  Returns the created entry (`none` =
skipped as duplicate) and the updated calendar state. -/
def createClassEvent (s : Settings) (cd : ClassDetails) (emailId : String)
    (now : PyDateTime) (cal : List GEvent) (queryError : Option String) :
    Option GEvent × List GEvent :=
  let draft := buildEventDetails s cd emailId now
  let qr : Except String (List GEvent) :=
    match queryError with
    | some e => Except.error e
    | none => Except.ok (calQuery cal draft.startTime draft.endTime)
  if eventExists draft qr then (none, cal)
  else (some draft, cal ++ [draft])

/-! ## Classifier adapter (`LLMService`)

The raw model response is parsed with `json.loads`, modelled as an abstract
`jsonLoads : String → Option Json` parameter (`none` = `JSONDecodeError`).
Exceptions inside `_parse_classification_response` are split into those its
`except (json.JSONDecodeError, KeyError, ValueError)` clause catches
(`caught = true`: JSON decode errors, pydantic `ValidationError`, `float`
conversion `ValueError`) and those that escape to `classify_email`'s
catch-all (`caught = false`: `TypeError`/`AttributeError` from `float(None)`
or attribute access on a non-dict). -/

/-- A parsed JSON value. -/
inductive Json where
  | jnull
  | jbool (b : Bool)
  | jnum (q : ℚ)
  | jstr (s : String)
  | jarr (l : List Json)
  | jobj (l : List (String × Json))

/-- `data.get(key)`: last binding wins, as in a Python dict built by
`json.loads`. -/
def jlookup (kvs : List (String × Json)) (k : String) : Option Json :=
  kvs.foldl (fun acc p => if p.1 = k then some p.2 else acc) none

/-- Python truthiness of a JSON value. -/
def jTruthy : Json → Bool
  | .jnull => false
  | .jbool b => b
  | .jnum q => if q = 0 then false else true
  | .jstr s => if s = "" then false else true
  | .jarr [] => false
  | .jarr (_ :: _) => true
  | .jobj [] => false
  | .jobj (_ :: _) => true

/-- A Python exception inside the response parse: `caught` says whether the
inner `except (json.JSONDecodeError, KeyError, ValueError)` clause catches
it. -/
structure PyErr where
  caught : Bool
  msg : String
deriving DecidableEq, Repr

/-- A `ValueError`-family error (caught by the inner handler). -/
def vErr (m : String) : PyErr := ⟨true, m⟩

/-- A `TypeError`/`AttributeError` (escapes the inner handler). -/
def hErr (m : String) : PyErr := ⟨false, m⟩

/-- A required string field with a `data.get(key, dflt)` default: a present
non-string (including `null`) fails pydantic validation (`ValidationError`,
a `ValueError` subclass, hence caught). -/
def getStrDefault (kvs : List (String × Json)) (key dflt : String) :
    Except PyErr String :=
  match jlookup kvs key with
  | none => .ok dflt
  | some (.jstr s) => .ok s
  | some _ => .error (vErr ("ValidationError: " ++ key ++ " must be a string"))

/-- An `Optional[str]` field read with `data.get(key)`. -/
def getOptStr (kvs : List (String × Json)) (key : String) :
    Except PyErr (Option String) :=
  match jlookup kvs key with
  | none => .ok none
  | some .jnull => .ok none
  | some (.jstr s) => .ok (some s)
  | some _ => .error (vErr ("ValidationError: " ++ key ++ " must be a string"))

/-- `float(data.get("confidence", 0.0))` followed by the pydantic
`ge=0, le=1` bound check.  `float(None)` and `float` of a list/dict raise
`TypeError`, which the inner handler does NOT catch. -/
def getConfidence (kvs : List (String × Json)) : Except PyErr ℚ :=
  match (jlookup kvs "confidence").getD (.jnum 0) with
  | .jnum q =>
      if 0 ≤ q ∧ q ≤ 1 then .ok q
      else .error (vErr "ValidationError: confidence out of range")
  | .jbool b => .ok (if b then 1 else 0)
  | .jstr s =>
      match pyFloatStr s with
      | some q =>
          if 0 ≤ q ∧ q ≤ 1 then .ok q
          else .error (vErr "ValidationError: confidence out of range")
      | none => .error (vErr "ValueError: could not convert string to float")
  | .jnull => .error (hErr "TypeError: float() argument must not be NoneType")
  | _ => .error (hErr "TypeError: float() argument must be a string or a real number")

/-- `form_links=data.get("form_links", [])` into `Optional[List[str]]`. -/
def getFormLinks (kvs : List (String × Json)) :
    Except PyErr (Option (List String)) :=
  match jlookup kvs "form_links" with
  | none => .ok (some [])
  | some .jnull => .ok none
  | some (.jarr l) => do
      let ss ← l.mapM (fun j =>
        match j with
        | .jstr s => Except.ok s
        | _ => Except.error (vErr "ValidationError: form_links items must be strings"))
      pure (some ss)
  | some _ => .error (vErr "ValidationError: form_links must be a list")

/-- `duration_minutes` into `Optional[int]` (pydantic coerces exact numbers
and numeric strings; anything else fails validation). -/
def getDurationMinutes (ckvs : List (String × Json)) :
    Except PyErr (Option Int) :=
  match jlookup ckvs "duration_minutes" with
  | none => .ok none
  | some .jnull => .ok none
  | some (.jnum q) =>
      if q.den = 1 then .ok (some q.num)
      else .error (vErr "ValidationError: duration_minutes must be an integer")
  | some (.jstr s) =>
      match pyInt s with
      | some i => .ok (some i)
      | none => .error (vErr "ValidationError: duration_minutes must be an integer")
  | some _ => .error (vErr "ValidationError: duration_minutes must be an integer")

/-- `equipment_needed=class_data.get("equipment_needed", [])` into
`Optional[List[str]]`. -/
def getEquipment (ckvs : List (String × Json)) :
    Except PyErr (Option (List String)) :=
  match jlookup ckvs "equipment_needed" with
  | none => .ok (some [])
  | some .jnull => .ok none
  | some (.jarr l) => do
      let ss ← l.mapM (fun j =>
        match j with
        | .jstr s => Except.ok s
        | _ => Except.error (vErr "ValidationError: equipment items must be strings"))
      pure (some ss)
  | some _ => .error (vErr "ValidationError: equipment_needed must be a list")

/-- The `ClassDetails(...)` construction from `class_data` (source lines
160–171), with pydantic validation of each optional field. -/
def buildClassDetails (ckvs : List (String × Json)) : Except PyErr ClassDetails := do
  let cn ← getOptStr ckvs "class_name"
  let dt ← getOptStr ckvs "date"
  let tm ← getOptStr ckvs "time"
  let ins ← getOptStr ckvs "instructor"
  let loc ← getOptStr ckvs "location"
  let ct ← getOptStr ckvs "class_type"
  let df ← getOptStr ckvs "difficulty"
  let dur ← getDurationMinutes ckvs
  let eqp ← getEquipment ckvs
  let nt ← getOptStr ckvs "notes"
  pure ⟨cn, dt, tm, ins, loc, ct, df, dur, eqp, nt⟩

/-- `if "class_details" in data and data["class_details"]:` and the
subsequent `class_data.get` accesses (`AttributeError` when the truthy value
is not a dict — escapes the inner handler). -/
def getClassDetails (kvs : List (String × Json)) :
    Except PyErr (Option ClassDetails) :=
  match jlookup kvs "class_details" with
  | none => .ok none
  | some v =>
      if jTruthy v then
        match v with
        | .jobj ckvs => (buildClassDetails ckvs).map some
        | _ => .error (hErr "AttributeError: object has no attribute get")
      else .ok none

/-- The code-fence stripping at the head of
`_parse_classification_response`. -/
def stripFences (response : String) : String :=
  let r1 := pyStrip response
  let r2 := if pyStartsWith r1 "```json" then pyDrop r1 7 else r1
  let r3 := if pyEndsWith r2 "```" then pyDropRight r2 3 else r2
  pyStrip r3

/-- The body of `_parse_classification_response`'s `try`: strip fences,
`json.loads`, build `ClassDetails`, then construct the
`EmailClassification` (the `float` conversion runs while the constructor's
arguments are evaluated, before pydantic field validation; `ClassDetails`
is built before either, as in the source). -/
def tryParse (jsonLoads : String → Option Json) (response : String) :
    Except PyErr EmailClassification :=
  match jsonLoads (stripFences response) with
  | none => .error (vErr "JSONDecodeError: Expecting value")
  | some (.jobj kvs) => do
      let cd ← getClassDetails kvs
      let conf ← getConfidence kvs
      let et ← getStrDefault kvs "email_type" "other"
      let act ← getStrDefault kvs "action_required" "none"
      let fl ← getFormLinks kvs
      let ru ← getOptStr kvs "registration_url"
      let rs ← getStrDefault kvs "reasoning" ""
      pure ⟨et, conf, cd, act, fl, ru, rs⟩
  | some (.jarr _) => .error (hErr "AttributeError: list object has no attribute get")
  | some (.jstr _) => .error (hErr "AttributeError: str object has no attribute get")
  | some _ => .error (hErr "TypeError: argument is not iterable")

/-- The fallback `EmailClassification` both error handlers build. -/
def fallbackClassification (reasoning : String) : EmailClassification :=
  ⟨"other", 0, none, "none", none, none, reasoning⟩

/-- `LLMService._parse_classification_response`: inner-caught errors become
the parse fallback; a `TypeError`/`AttributeError` escapes (`Except.error`)
to the caller. -/
def parseClassificationResponse (jsonLoads : String → Option Json)
    (response : String) : Except String EmailClassification :=
  match tryParse jsonLoads response with
  | .ok c => .ok c
  | .error e =>
      if e.caught then .ok (fallbackClassification ("Error parsing response: " ++ e.msg))
      else .error e.msg

/-- `s[:2000]` body truncation. -/
def pyTake (s : String) (n : Nat) : String :=
  ⟨s.data.take n⟩

/-- `LLMService._build_classification_prompt` (the f-string of source lines
57–116, with its interpolations). -/
def buildClassificationPrompt (email : EmailMetadata) : String :=
  "
You are an AI assistant that processes emails for a boxing gym automation system. 
Analyze the following email and classify it, then extract relevant information.

Email Details:
- Subject: " ++ email.subject ++ "
- From: " ++ email.from_email ++ "
- Date: " ++ email.date ++ "
- Snippet: " ++ email.snippet ++ "
- Body: " ++ pyTake email.body 2000 ++ "...

Please analyze this email and respond with a JSON object containing:

1. email_type: One of [\"registration_form\", \"confirmation\", \"cancellation\", \"waitlist\", \"other\"]
   - \"confirmation\": For Google Forms confirmation emails with subject \"Thanks for filling out this form: Boxing Class Registration\"
   - \"registration_form\": For emails containing registration forms or links
   - \"cancellation\": For class cancellation notices
   - \"waitlist\": For waitlist notifications
   - \"other\": For any other email types

2. confidence: A float between 0.0 and 1.0 indicating your confidence in the classification

3. class_details: If this is a class-related email, extract:
   - class_name: Name of the class (e.g., \"Boxing Class\", \"Kickboxing\", \"Fitness Training\")
   - date: Date of the class in YYYY-MM-DD format (if mentioned)
   - time: Time of the class in HH:MM format (if mentioned)
   - instructor: Instructor/coach name (if mentioned)
   - location: Location/address (if mentioned)
   - class_type: Type of class (e.g., \"boxing\", \"kickboxing\", \"fitness\")
   - difficulty: Difficulty level (if mentioned)
   - duration_minutes: Duration in minutes (if mentioned)
   - equipment_needed: List of equipment needed (if mentioned)
   - notes: Any additional notes

4. action_required: One of [\"register\", \"create_calendar\", \"cancel_event\", \"waitlist\", \"none\"]
   - \"create_calendar\": For confirmation emails that should create calendar events
   - \"register\": For registration forms that need to be filled out
   - \"cancel_event\": For cancellation emails
   - \"waitlist\": For waitlist notifications
   - \"none\": For emails that don't require action

5. form_links: List of any form URLs found in the email
6. registration_url: Primary registration URL if found
7. reasoning: Brief explanation of your classification and reasoning

Special attention for Google Forms confirmations:
- Look for emails with subject \"Thanks for filling out this form: Boxing Class Registration\"
- Extract class details from the form response data
- Look for date, time, instructor, and class type information
- These emails should be classified as \"confirmation\" with action_required \"create_calendar\"

Focus on:
- Boxing gym class registrations and confirmations
- Class schedules and details
- Registration forms and links
- Google Forms confirmation emails with class details
- Confirmation emails that should trigger calendar event creation

Respond with valid JSON only, no additional text.
"

/-- `LLMService.classify_email`: builds the prompt, makes the single
external call (`callLLM`; `Except.error` = the provider call raised), parses
defensively; the catch-all turns anything that escaped into the fallback
classification.  Total by construction: classification never raises past
this boundary. -/
def classifyEmail (callLLM : String → Except String String)
    (jsonLoads : String → Option Json) (email : EmailMetadata) :
    EmailClassification :=
  match callLLM (buildClassificationPrompt email) with
  | .error e => fallbackClassification ("Error in classification: " ++ e)
  | .ok resp =>
      match parseClassificationResponse jsonLoads resp with
      | .ok c => c
      | .error e => fallbackClassification ("Error in classification: " ++ e)

/-! ## Dispatcher / state machine (`BoxingGymAgent`)

External collaborators (mail fetch, classification, mark-as-read, calendar
create, the secondary Google-Forms extraction) are modelled as an
environment of functions; `Except.error` marks a raised exception at the
call boundary.  `classify` is total, as `LLMService.classify_email` never
raises (proved below), and `_extract_google_forms_details` catches all of
its own errors and returns an optional value.  Externally visible calls are
recorded as an effect trace. -/

/-- One observable collaborator call made while processing a message. -/
inductive Effect where
  | fetchCall (id : String)
  | classifyCall
  | extractCall (id : String)
  | calendarCreate (id : String)
  | markRead (id : String)
deriving DecidableEq, Repr

/-- The collaborator environment of one run. -/
structure Env where
  fetch : String → Except String EmailMetadata
  classify : EmailMetadata → EmailClassification
  extractGoogleForms : ProcessedEmail → Option ClassDetails
  markAsRead : String → Except String Unit
  createEvent : ClassDetails → String → Except String (Option GEvent)

/-- `AgentStatus` counters (the clock field `last_check` is carried as an
abstract tick number). -/
structure AgentStatus where
  is_running : Bool := false
  processed_emails_count : Nat := 0
  last_check : Option Nat := none
  errors_count : Nat := 0
  successful_actions : Nat := 0
deriving DecidableEq, Repr

/-- The agent's mutable state: the processed-set ledger and the status
counters. -/
structure AgentState where
  processed_emails : List String := []
  status : AgentStatus := {}
deriving DecidableEq, Repr

/-- `BoxingGymAgent._handle_registration_form`: log, then mark as read
(auto-registration is a logged no-op).  The `markAsRead` error, if any,
escapes to `process_email`. -/
def handleRegistrationForm (env : Env) (st : AgentStatus) (pe : ProcessedEmail) :
    AgentStatus × List Effect × Option String :=
  match env.markAsRead pe.metadata.id with
  | .ok _ => (st, [.markRead pe.metadata.id], none)
  | .error e => (st, [.markRead pe.metadata.id], some e)

/-- Python truthiness of `classification.class_details or not
class_details.class_name` in the confirmation handler: the secondary
extraction runs when details are missing or unnamed. -/
def detailsUnnamed (cd : Option ClassDetails) : Bool :=
  match cd with
  | none => true
  | some c =>
      match c.class_name with
      | none => true
      | some s => s = ""

/-- `BoxingGymAgent._handle_confirmation_email`: optional secondary
extraction for Google-Forms confirmations, early return when no details,
calendar creation (its own errors caught and counted), then mark as read
(whose error escapes). -/
def handleConfirmationEmail (s : Settings) (env : Env) (st : AgentStatus)
    (pe : ProcessedEmail) : AgentStatus × List Effect × Option String :=
  let isGoogleForms :=
    strContains pe.metadata.subject
      "Thanks for filling out this form: Boxing Class Registration"
  let runExtraction := isGoogleForms && detailsUnnamed pe.classification.class_details
  let cd := if runExtraction then env.extractGoogleForms pe
            else pe.classification.class_details
  let effs0 : List Effect :=
    if runExtraction then [.extractCall pe.metadata.id] else []
  match cd with
  | none => (st, effs0, none)
  | some details =>
      let (st1, effs1) :=
        if s.enable_calendar_creation then
          match env.createEvent details pe.metadata.id with
          | .ok (some _) =>
              ({ st with successful_actions := st.successful_actions + 1 },
               effs0 ++ [.calendarCreate pe.metadata.id])
          | .ok none => (st, effs0 ++ [.calendarCreate pe.metadata.id])
          | .error _ =>
              ({ st with errors_count := st.errors_count + 1 },
               effs0 ++ [.calendarCreate pe.metadata.id])
        else (st, effs0)
      match env.markAsRead pe.metadata.id with
      | .ok _ => (st1, effs1 ++ [.markRead pe.metadata.id], none)
      | .error e => (st1, effs1 ++ [.markRead pe.metadata.id], some e)

/-- `BoxingGymAgent._handle_cancellation_email` /
`_handle_waitlist_email`: log, then mark as read. -/
def handleLogAndMarkRead (env : Env) (st : AgentStatus) (pe : ProcessedEmail) :
    AgentStatus × List Effect × Option String :=
  match env.markAsRead pe.metadata.id with
  | .ok _ => (st, [.markRead pe.metadata.id], none)
  | .error e => (st, [.markRead pe.metadata.id], some e)

/-- `BoxingGymAgent._handle_classified_email`: the confidence gate, then
routing on the (string-compared) email type; unknown types take the log-only
branch. -/
def handleClassifiedEmail (s : Settings) (env : Env) (st : AgentStatus)
    (pe : ProcessedEmail) : AgentStatus × List Effect × Option String :=
  let c := pe.classification
  if c.confidence < s.confidence_threshold then (st, [], none)
  else if c.email_type = "registration_form" then handleRegistrationForm env st pe
  else if c.email_type = "confirmation" then handleConfirmationEmail s env st pe
  else if c.email_type = "cancellation" then handleLogAndMarkRead env st pe
  else if c.email_type = "waitlist" then handleLogAndMarkRead env st pe
  else (st, [], none)

/-- `BoxingGymAgent.process_email`: skip when the identifier is already in
the ledger; otherwise fetch, classify, handle; on success add the
identifier to the ledger and bump the processed counter; the catch-all
counts any escaped error (and, as in the source, does NOT add the
identifier to the ledger on that path). -/
def processEmail (env : Env) (s : Settings) (st : AgentState) (m : String) :
    AgentState × List Effect :=
  if m ∈ st.processed_emails then (st, [])
  else
    match env.fetch m with
    | .error _ =>
        ({ st with status := { st.status with errors_count := st.status.errors_count + 1 } },
         [.fetchCall m])
    | .ok meta =>
        let cls := env.classify meta
        let pe : ProcessedEmail := ⟨meta, cls⟩
        match handleClassifiedEmail s env st.status pe with
        | (st1, effs, some _) =>
            ({ st with status := { st1 with errors_count := st1.errors_count + 1 } },
             [.fetchCall m, .classifyCall] ++ effs)
        | (st1, effs, none) =>
            ({ processed_emails := m :: st.processed_emails,
               status := { st1 with
                 processed_emails_count := st1.processed_emails_count + 1 } },
             [.fetchCall m, .classifyCall] ++ effs)

/-- Fold `process_email` over a batch of message identifiers, appending the
effect traces. -/
def processBatch (env : Env) (s : Settings) (st : AgentState) :
    List String → AgentState × List Effect
  | [] => (st, [])
  | m :: rest =>
      let (st1, effs1) := processEmail env s st m
      let (st2, effs2) := processBatch env s st1 rest
      (st2, effs1 ++ effs2)

/-- `BoxingGymAgent.check_for_new_emails`: one poll tick.  `searchResult` is
what `gmail_service.search_emails` returned (or raised); identifiers already
in the ledger are filtered out, the rest are processed in order, and the
tick stamp is recorded.  A search error is counted and the tick does
nothing else. -/
def checkForNewEmails (env : Env) (s : Settings) (st : AgentState)
    (searchResult : Except String (List String)) (tick : Nat) :
    AgentState × List Effect :=
  match searchResult with
  | .error _ =>
      ({ st with status := { st.status with errors_count := st.status.errors_count + 1 } },
       [])
  | .ok msgs =>
      let newMsgs := msgs.filter (fun i => i ∉ st.processed_emails)
      let (st1, effs) := processBatch env s st newMsgs
      ({ st1 with status := { st1.status with last_check := some tick } }, effs)

/-- A run of the poll loop: successive ticks, each with its search result
and tick stamp. -/
def runTicks (env : Env) (s : Settings) (st : AgentState) :
    List (Except String (List String) × Nat) → AgentState × List Effect
  | [] => (st, [])
  | (sr, tk) :: rest =>
      let (st1, effs1) := checkForNewEmails env s st sr tk
      let (st2, effs2) := runTicks env s st1 rest
      (st2, effs1 ++ effs2)

/-- Does an effect record a calendar-create call for message `m`? -/
def isCreateFor (m : String) : Effect → Bool
  | .calendarCreate i => i = m
  | _ => false

/-- Does an effect mention message `m` at all? -/
def touchesMsg (m : String) : Effect → Bool
  | .fetchCall i => i = m
  | .classifyCall => false
  | .extractCall i => i = m
  | .calendarCreate i => i = m
  | .markRead i => i = m

/-! ## Lemmas about the date-time model -/

theorem daysInMonth_pos (y m : Nat) : 1 ≤ daysInMonth y m := by
  unfold daysInMonth
  split
  · split <;> omega
  · split <;> omega

theorem daysInMonth_le (y m : Nat) : daysInMonth y m ≤ 31 := by
  unfold daysInMonth
  split
  · split <;> omega
  · split <;> omega

theorem dateOk_mk {y m d : Nat} (h1 : 1 ≤ y) (h2 : 1 ≤ m) (h3 : m ≤ 12)
    (h4 : 1 ≤ d) (h5 : d ≤ daysInMonth y m) : DateOk ⟨y, m, d⟩ :=
  ⟨h1, h2, h3, h4, h5⟩

theorem dtOk_mk {y m d hh mi : Nat} (h1 : 1 ≤ y) (h2 : 1 ≤ m) (h3 : m ≤ 12)
    (h4 : 1 ≤ d) (h5 : d ≤ daysInMonth y m) (h6 : hh < 24) (h7 : mi < 60) :
    DTOk ⟨y, m, d, hh, mi⟩ :=
  ⟨h1, h2, h3, h4, h5, h6, h7⟩

theorem dateIdx_mk (y m d : Nat) :
    dateIdx ⟨y, m, d⟩ = (y * 12 + (m - 1)) * 31 + (d - 1) := rfl

theorem addOneDay_ok {d : PyDate} (h : DateOk d) : DateOk (addOneDay d) := by
  obtain ⟨h1, h2, h3, h4, h5⟩ := h
  unfold addOneDay
  split
  · next hlt => exact dateOk_mk h1 h2 h3 (by omega) hlt
  · split
    · next hm => exact dateOk_mk h1 (by omega) (by omega) (by omega) (daysInMonth_pos _ _)
    · exact dateOk_mk (by omega) (by omega) (by omega) (by omega) (daysInMonth_pos _ _)

theorem addOneDay_idx {d : PyDate} (h : DateOk d) :
    dateIdx d < dateIdx (addOneDay d) := by
  obtain ⟨h1, h2, h3, h4, h5⟩ := h
  have hd31 : d.day ≤ 31 := le_trans h5 (daysInMonth_le _ _)
  have he : dateIdx d = (d.year * 12 + (d.month - 1)) * 31 + (d.day - 1) := rfl
  unfold addOneDay
  split
  · rw [he, dateIdx_mk]; omega
  · split
    · rw [he, dateIdx_mk]; omega
    · next hda hmo =>
        rw [he, dateIdx_mk]
        have : d.month = 12 := by omega
        omega

theorem addDays_ok {d : PyDate} (h : DateOk d) (n : Nat) : DateOk (addDays d n) := by
  induction n generalizing d with
  | zero => exact h
  | succ k ih => exact ih (addOneDay_ok h)

theorem addDays_idx {d : PyDate} (h : DateOk d) (n : Nat) :
    dateIdx d + n ≤ dateIdx (addDays d n) := by
  induction n generalizing d with
  | zero => simp [addDays]
  | succ k ih =>
      have h1 := addOneDay_idx h
      have h2 := ih (addOneDay_ok h)
      simp only [addDays]
      omega

theorem dateOf_ok {t : PyDateTime} (h : DTOk t) : DateOk (dateOf t) := by
  obtain ⟨h1, h2, h3, h4, h5, _, _⟩ := h
  exact ⟨h1, h2, h3, h4, h5⟩

theorem addMinutes_ok {t : PyDateTime} (h : DTOk t) (k : Nat) :
    DTOk (addMinutes t k) := by
  obtain ⟨g1, g2, g3, g4, g5⟩ :=
    addDays_ok (dateOf_ok h) ((t.hour * 60 + t.minute + k) / 1440)
  exact dtOk_mk g1 g2 g3 g4 g5 (by omega) (by omega)

theorem dtKey_eq (t : PyDateTime) :
    dtKey t = dateIdx (dateOf t) * 1440 + t.hour * 60 + t.minute := rfl

theorem addMinutes_key_lt {t : PyDateTime} (h : DTOk t) {k : Nat} (hk : 0 < k) :
    dtKey t < dtKey (addMinutes t k) := by
  obtain ⟨h1, h2, h3, h4, h5, h6, h7⟩ := h
  have hidx :
      dateIdx (dateOf t) + (t.hour * 60 + t.minute + k) / 1440 ≤
        dateIdx (addDays (dateOf t) ((t.hour * 60 + t.minute + k) / 1440)) :=
    addDays_idx (dateOf_ok ⟨h1, h2, h3, h4, h5, h6, h7⟩) _
  have e2 : dtKey (addMinutes t k) =
      dateIdx (addDays (dateOf t) ((t.hour * 60 + t.minute + k) / 1440)) * 1440 +
        ((t.hour * 60 + t.minute + k) % 1440) / 60 * 60 +
        ((t.hour * 60 + t.minute + k) % 1440) % 60 := rfl
  rw [dtKey_eq t, e2]
  omega

theorem tomorrowAt18_ok {now : PyDateTime} (h : DTOk now) :
    DTOk (tomorrowAt18 now) := by
  obtain ⟨g1, g2, g3, g4, g5⟩ := addOneDay_ok (dateOf_ok h)
  exact dtOk_mk g1 g2 g3 g4 g5 (by omega) (by omega)

theorem mkDate_ok {y m d : Int} {dd : PyDate} (h : mkDate y m d = some dd) :
    DateOk dd := by
  unfold mkDate at h
  split at h
  · next hc =>
      obtain ⟨c1, c2, c3, c4, c5, c6⟩ := hc
      injection h with h
      subst h
      exact dateOk_mk (by omega) (by omega) (by omega) (by omega) (by omega)
  · exact absurd h (by simp)

theorem mkTimeHM_ok {h mi : Int} {p : Nat × Nat} (e : mkTimeHM h mi = some p) :
    p.1 < 24 ∧ p.2 < 60 := by
  unfold mkTimeHM at e
  split at e
  · next hc =>
      injection e with e
      subst e
      exact ⟨by omega, by omega⟩
  · exact absurd e (by simp)

theorem fromIso_ok {s : String} {d : PyDate} (h : fromIso s = some d) : DateOk d := by
  unfold fromIso at h
  split at h
  · split at h
    · exact mkDate_ok h
    · exact absurd h (by simp)
  · exact absurd h (by simp)

theorem commaDateParse_ok {s : String} {d : PyDate} (h : commaDateParse s = some d) :
    DateOk d := by
  unfold commaDateParse at h
  split at h
  · split at h
    · split at h
      · exact mkDate_ok h
      · exact absurd h (by simp)
    · exact absurd h (by simp)
  · exact absurd h (by simp)

theorem parseDatePart_ok {ds : Option String} {now : PyDateTime} {d : PyDate}
    (hnow : DTOk now) (h : parseDatePart ds now = some d) : DateOk d := by
  unfold parseDatePart at h
  dsimp only at h
  split at h
  · split at h
    · split at h
      · split at h
        · exact mkDate_ok h
        · exact absurd h (by simp)
      · exact absurd h (by simp)
    · split at h
      · exact fromIso_ok h
      · split at h
        · injection h with h
          subst h
          cases hc : commaDateParse (pyStrip (ds.getD "")) with
          | none => exact dateOf_ok hnow
          | some dd => exact commaDateParse_ok hc
        · injection h with h
          subst h
          cases hc : fromIso (pyStrip (ds.getD "")) with
          | none => exact dateOf_ok hnow
          | some dd => exact fromIso_ok hc
  · injection h with h
    subst h
    exact dateOf_ok hnow

theorem combineDT_ok {d : PyDate} {hh mm : Nat} (hd : DateOk d) (h1 : hh < 24)
    (h2 : mm < 60) : DTOk (combineDT d hh mm) := by
  obtain ⟨g1, g2, g3, g4, g5⟩ := hd
  exact ⟨g1, g2, g3, g4, g5, h1, h2⟩

theorem parseTimePart_ok {ts : Option String} {d : PyDate} {t : PyDateTime}
    (hd : DateOk d) (h : parseTimePart ts d = some t) : DTOk t := by
  unfold parseTimePart at h
  dsimp only at h
  split at h
  · split at h
    · split at h
      · split at h
        · split at h
          · cases hm : mkTimeHM _ _ with
            | none => rw [hm] at h; exact absurd h (by simp)
            | some p =>
                rw [hm] at h
                injection h with h
                subst h
                have := mkTimeHM_ok hm
                exact combineDT_ok hd this.1 this.2
          · exact absurd h (by simp)
        · exact absurd h (by simp)
      · split at h
        · split at h
          · cases hm : mkTimeHM _ _ with
            | none => rw [hm] at h; exact absurd h (by simp)
            | some p =>
                rw [hm] at h
                injection h with h
                subst h
                have := mkTimeHM_ok hm
                exact combineDT_ok hd this.1 this.2
          · exact absurd h (by simp)
        · exact absurd h (by simp)
    · split at h
      · cases hm : mkTimeHM _ _ with
        | none => rw [hm] at h; exact absurd h (by simp)
        | some p =>
            rw [hm] at h
            injection h with h
            subst h
            have := mkTimeHM_ok hm
            exact combineDT_ok hd this.1 this.2
      · exact absurd h (by simp)
  · injection h with h
    subst h
    exact combineDT_ok hd (by omega) (by omega)

/-- Validity of every normalizer result (shared helper). -/
theorem parseClassTime_ok {cd : ClassDetails} {now : PyDateTime} (hnow : DTOk now) :
    DTOk (parseClassTime cd now) := by
  unfold parseClassTime
  cases hb : parseClassTimeBody cd now with
  | none => exact tomorrowAt18_ok hnow
  | some t =>
      unfold parseClassTimeBody at hb
      cases hd : parseDatePart cd.date now with
      | none => rw [hd] at hb; exact absurd hb (by simp)
      | some d =>
          rw [hd] at hb
          exact parseTimePart_ok (parseDatePart_ok hnow hd) hb

/-! ## Claim theorems: temporal normalizer, duplicate check, prompt -/

/-- C3 counterexample: the claim says every parse exception inside
`_parse_class_time` is converted to tomorrow at 18:00, but the exceptions
caught by the branch-local handlers fall back to today with the time ladder
still applied.  Concretely, "Monday, October 99" raises inside the
"Weekday, Month Day" branch (`datetime(2024, 10, 99)` is invalid), the
inner handler substitutes today, and with time "10:00" the result is today
at 10:00 — not tomorrow at 18:00. -/
theorem parse_class_time_inner_fallback_cex :
    mkDate 2024 10 99 = none ∧
    commaDateParse "Monday, October 99" = none ∧
    parseClassTime { date := some "Monday, October 99", time := some "10:00" }
        ⟨2025, 6, 5, 12, 0⟩ = ⟨2025, 6, 5, 10, 0⟩ ∧
    (⟨2025, 6, 5, 10, 0⟩ : PyDateTime) ≠ tomorrowAt18 ⟨2025, 6, 5, 12, 0⟩ := by
  exact ⟨rfl, rfl, rfl, by decide⟩

/-- C3 amended: totality holds — for every (date string, time string) pair,
including absent values, empty strings and arbitrary malformed text (and a
valid clock), `_parse_class_time` returns a valid concrete timestamp and
never raises.  The exception-to-fallback conversion is two-level: an
exception escaping the body to the outer handler yields the deterministic
fallback of tomorrow at 18:00, while an exception caught by a branch-local
handler (the "Weekday, Month Day" branch and the final ISO-parse branch)
resolves the date to TODAY, with the time ladder still applied — stated
below as: a non-`/`, non-`-` date string whose comma-parse and ISO-parse
both fail resolves to today's date. -/
theorem parse_class_time_total_fallbacks (cd : ClassDetails) (now : PyDateTime)
    (hnow : DTOk now) :
    DTOk (parseClassTime cd now) ∧
    (parseClassTimeBody cd now = none → parseClassTime cd now = tomorrowAt18 now) ∧
    (∀ d : String, d ≠ "" →
      pyHasChar (pyStrip d) '/' = false →
      pyHasChar (pyStrip d) '-' = false →
      commaDateParse (pyStrip d) = none →
      fromIso (pyStrip d) = none →
      parseDatePart (some d) now = some (dateOf now)) := by
  refine ⟨parseClassTime_ok hnow, ?_, ?_⟩
  · intro hb
    unfold parseClassTime
    rw [hb]
    rfl
  · intro d hne h1 h2 hc hiso
    have ht : truthyStr (some d) = true := decide_eq_true hne
    unfold parseDatePart
    rw [if_pos ht]
    dsimp only
    simp only [Option.getD_some]
    rw [if_neg (by simp [h1]), if_neg (by simp [h2])]
    by_cases hcm : pyHasChar (pyStrip d) ',' = true ∧
        (monthTable.any fun p => strContains (pyStrip d) p.1) = true
    · rw [if_pos hcm, hc]
      rfl
    · rw [if_neg hcm, hiso]
      rfl

/-- Witness for C3 (amended), at concrete inputs: an escaped exception
("13/45/2024") gives tomorrow at 18:00; an inner-caught exception
("Monday, October 99") resolves the date to today; both results are valid
timestamps. -/
theorem parse_class_time_total_fallbacks_witness :
    DTOk (⟨2025, 6, 5, 12, 0⟩ : PyDateTime) ∧
    DTOk (parseClassTime { date := some "Monday, October 99", time := some "10:00" }
        ⟨2025, 6, 5, 12, 0⟩) ∧
    (parseClassTimeBody { date := some "13/45/2024", time := some "not a time" }
        ⟨2025, 6, 5, 12, 0⟩ = none →
      parseClassTime { date := some "13/45/2024", time := some "not a time" }
        ⟨2025, 6, 5, 12, 0⟩ = tomorrowAt18 ⟨2025, 6, 5, 12, 0⟩) ∧
    parseDatePart (some "Monday, October 99") ⟨2025, 6, 5, 12, 0⟩ =
      some (dateOf ⟨2025, 6, 5, 12, 0⟩) :=
  ⟨by decide,
   (parse_class_time_total_fallbacks
     { date := some "Monday, October 99", time := some "10:00" }
     ⟨2025, 6, 5, 12, 0⟩ (by decide)).1,
   (parse_class_time_total_fallbacks
     { date := some "13/45/2024", time := some "not a time" }
     ⟨2025, 6, 5, 12, 0⟩ (by decide)).2.1,
   (parse_class_time_total_fallbacks
     { date := some "Monday, October 99", time := some "10:00" }
     ⟨2025, 6, 5, 12, 0⟩ (by decide)).2.2 "Monday, October 99"
     (by decide) rfl rfl rfl rfl⟩

/-- C6 counterexample: the claim says the `"Weekday, Month Day"` branch
resolves the year to a caller-supplied reference year, but
`_parse_class_time` has no such parameter — the year is the hard-coded
literal 2024.  With the only caller-supplied temporal input (the current
instant) in year 2030, "Friday, October 10" at "18:15" still resolves to
2024-10-10T18:15, so no caller-supplied year policy is in effect. -/
theorem comma_date_reference_year_cex :
    parseClassTime { date := some "Friday, October 10", time := some "18:15" }
        ⟨2030, 1, 1, 12, 0⟩ = ⟨2024, 10, 10, 18, 15⟩ ∧ (2024 : Nat) ≠ 2030 :=
  ⟨rfl, by decide⟩

/-- C6 amended: there is no caller-supplied reference-year parameter.  For
every date string, whenever the "Weekday, Month Day" month-day parse
succeeds, the resolved year is the hard-coded constant 2024 (the source
comment reads "Assume 2024 for boxing classes"); a comma-form string whose
inner parse fails instead falls back to today (the clock's year).  Stated
as: (1) every successful `commaDateParse` result has year 2024; (2) in the
branch, a successful inner parse is returned unchanged — independent of the
clock; (3) the scenario: "Friday, October 10" with "18:15" resolves to
2024-10-10T18:15 local, whatever instant the clock shows. -/
theorem comma_date_year_hardcoded :
    (∀ (s : String) (dd : PyDate), commaDateParse s = some dd → dd.year = 2024) ∧
    (∀ (d : String) (now : PyDateTime) (dd : PyDate), d ≠ "" →
      pyHasChar (pyStrip d) '/' = false →
      pyHasChar (pyStrip d) '-' = false →
      (pyHasChar (pyStrip d) ',' = true ∧
        (monthTable.any fun p => strContains (pyStrip d) p.1) = true) →
      commaDateParse (pyStrip d) = some dd →
      parseDatePart (some d) now = some dd) ∧
    (∀ now, parseClassTime
        { date := some "Friday, October 10", time := some "18:15" } now =
      ⟨2024, 10, 10, 18, 15⟩) := by
  refine ⟨?_, ?_, fun now => rfl⟩
  · intro s dd h
    unfold commaDateParse at h
    split at h
    · dsimp only at h
      split at h
      · split at h
        · unfold mkDate at h
          split at h
          · injection h with h
            subst h
            rfl
          · exact absurd h (by simp)
        · exact absurd h (by simp)
      · exact absurd h (by simp)
    · exact absurd h (by simp)
  · intro d now dd hne h1 h2 hcm hsome
    have ht : truthyStr (some d) = true := decide_eq_true hne
    unfold parseDatePart
    rw [if_pos ht]
    dsimp only
    simp only [Option.getD_some]
    rw [if_neg (by simp [h1]), if_neg (by simp [h2]), if_pos hcm, hsome]
    rfl

/-- Witness for C6 (amended): the concrete scenario string, parsed against a
clock in year 2030, yields the hard-coded year 2024. -/
theorem comma_date_year_hardcoded_witness :
    commaDateParse (pyStrip "Friday, October 10") = some ⟨2024, 10, 10⟩ ∧
    (⟨2024, 10, 10⟩ : PyDate).year = 2024 ∧
    parseDatePart (some "Friday, October 10") ⟨2030, 1, 1, 12, 0⟩ =
      some ⟨2024, 10, 10⟩ ∧
    parseClassTime { date := some "Friday, October 10", time := some "18:15" }
      ⟨2030, 1, 1, 12, 0⟩ = ⟨2024, 10, 10, 18, 15⟩ :=
  ⟨rfl,
   comma_date_year_hardcoded.1 (pyStrip "Friday, October 10") ⟨2024, 10, 10⟩ rfl,
   comma_date_year_hardcoded.2.1 "Friday, October 10" ⟨2030, 1, 1, 12, 0⟩
     ⟨2024, 10, 10⟩ (by decide) rfl rfl ⟨rfl, rfl⟩ rfl,
   comma_date_year_hardcoded.2.2 ⟨2030, 1, 1, 12, 0⟩⟩

/-- C9: fail-open duplicate check.  If the duplicate-check query against the
calendar collaborator raises, `_event_exists` returns `false` (assume no
duplicate) instead of propagating the error, and `create_class_event`
therefore proceeds to create the entry rather than being blocked. -/
theorem event_exists_fail_open :
    ∀ (draft : GEvent) (msg : String) (s : Settings) (cd : ClassDetails)
      (emailId : String) (now : PyDateTime) (cal : List GEvent),
      eventExists draft (Except.error msg) = false ∧
      (createClassEvent s cd emailId now cal (some msg)).1 =
        some (buildEventDetails s cd emailId now) ∧
      (createClassEvent s cd emailId now cal (some msg)).2 =
        cal ++ [buildEventDetails s cd emailId now] := by
  intro draft msg s cd emailId now cal
  exact ⟨rfl, rfl, rfl⟩

/-- C10: the classification prompt depends on the body only through its
first 2000 characters.  Two messages agreeing on subject, sender, date,
snippet and the first 2000 characters of the body produce identical
prompts, whatever their identifiers, thread, recipient, or remaining body
text. -/
theorem classification_prompt_body_prefix (e1 e2 : EmailMetadata)
    (hs : e1.subject = e2.subject) (hf : e1.from_email = e2.from_email)
    (hd : e1.date = e2.date) (hsn : e1.snippet = e2.snippet)
    (hb : pyTake e1.body 2000 = pyTake e2.body 2000) :
    buildClassificationPrompt e1 = buildClassificationPrompt e2 := by
  unfold buildClassificationPrompt
  rw [hs, hf, hd, hsn, hb]

/-- Witness for C10: two concrete messages differing in identifier, thread
and recipient give the same prompt. -/
theorem classification_prompt_body_prefix_witness :
    buildClassificationPrompt
      ⟨"id1", "t1", "Class schedule", "gym@x.com", "me@x.com",
       "2024-03-15 10:00:00", "snip", "body text"⟩ =
    buildClassificationPrompt
      ⟨"id2", "t2", "Class schedule", "gym@x.com", "you@x.com",
       "2024-03-15 10:00:00", "snip", "body text"⟩ :=
  classification_prompt_body_prefix _ _ rfl rfl rfl rfl rfl

/-! ## Lemmas for the duplicate check -/

theorem takeUntilSep_isPrefixOf (sep : List Char) (l : List Char) :
    (takeUntilSep sep l).isPrefixOf l = true := by
  induction l with
  | nil => rfl
  | cons c rest ih =>
      unfold takeUntilSep
      split
      · rfl
      · simp [List.isPrefixOf, ih]

theorem listHasInfix_of_isPrefixOf {l1 l2 : List Char}
    (h : l1.isPrefixOf l2 = true) : listHasInfix l1 l2 = true := by
  cases l2 with
  | nil => exact h
  | cons c rest => unfold listHasInfix; rw [h]; rfl

/-- Every title contains its own leading segment as a substring. -/
theorem strContains_leadingSegment (s : String) :
    strContains s (leadingSegment s) = true :=
  listHasInfix_of_isPrefixOf (takeUntilSep_isPrefixOf _ _)

theorem buildEventDetails_startTime (s : Settings) (cd : ClassDetails)
    (emailId : String) (now : PyDateTime) :
    (buildEventDetails s cd emailId now).startTime = parseClassTime cd now := rfl

theorem buildEventDetails_endTime (s : Settings) (cd : ClassDetails)
    (emailId : String) (now : PyDateTime) :
    (buildEventDetails s cd emailId now).endTime =
      addMinutesI (parseClassTime cd now) (effectiveDuration s cd) := rfl

/-- A draft with positive effective duration spans a non-empty window. -/
theorem buildEventDetails_window_lt (s : Settings) (cd : ClassDetails)
    (emailId : String) (now : PyDateTime) (hnow : DTOk now)
    (hdur : 0 < effectiveDuration s cd) :
    dtLtB (buildEventDetails s cd emailId now).startTime
      (buildEventDetails s cd emailId now).endTime = true := by
  rw [buildEventDetails_startTime, buildEventDetails_endTime]
  unfold addMinutesI
  rw [if_pos hdur.le]
  unfold dtLtB
  rw [Nat.blt_eq]
  exact addMinutes_key_lt (parseClassTime_ok hnow) (by omega)

/-! ## Claim theorems: duplicate-event suppression -/

/-- C7 counterexample: the claim characterizes a duplicate as equality of
the entry title's leading segment with the draft title's leading segment;
the code instead tests whether the draft's leading segment occurs anywhere
in the entry's full title.  Concretely, against a draft titled
"Boxing - Gym", an existing entry titled "The Boxing Club - Gym" is reported
as a duplicate although the two leading segments ("The Boxing Club" vs
"Boxing") differ. -/
theorem event_exists_substring_cex :
    eventExists
        ⟨"Boxing - Gym", "", ⟨2024, 3, 15, 18, 0⟩, ⟨2024, 3, 15, 19, 0⟩, "Gym"⟩
        (Except.ok
          [⟨"The Boxing Club - Gym", "", ⟨2024, 3, 15, 18, 0⟩,
            ⟨2024, 3, 15, 19, 0⟩, "Gym"⟩]) = true ∧
    leadingSegment "The Boxing Club - Gym" ≠ leadingSegment "Boxing - Gym" := by
  exact ⟨rfl, by decide⟩

/-- C7 amended: an existing entry is considered a duplicate exactly when the
draft title's leading segment (the text before the first " - ") occurs as a
substring of the entry's title within the queried window; consequently, for
every ClassDetails with positive effective duration (and a valid clock),
calling `create_class_event` twice with identical details — the first
create succeeding and visible to the second call's query — makes the first
call create the entry and the second call skip as a duplicate, leaving a
single entry. -/
theorem create_class_event_dedup (s : Settings) (cd : ClassDetails)
    (emailId : String) (now : PyDateTime) (hnow : DTOk now)
    (hdur : 0 < effectiveDuration s cd) :
    (∀ events, eventExists (buildEventDetails s cd emailId now) (Except.ok events) =
        events.any (fun e =>
          strContains e.summary (leadingSegment (buildEventDetails s cd emailId now).summary))) ∧
    (createClassEvent s cd emailId now [] none).1 =
      some (buildEventDetails s cd emailId now) ∧
    (createClassEvent s cd emailId now
        (createClassEvent s cd emailId now [] none).2 none).1 = none ∧
    (createClassEvent s cd emailId now
        (createClassEvent s cd emailId now [] none).2 none).2 =
      [buildEventDetails s cd emailId now] := by
  have hfst : createClassEvent s cd emailId now [] none =
      (some (buildEventDetails s cd emailId now),
       [buildEventDetails s cd emailId now]) := rfl
  have hlt := buildEventDetails_window_lt s cd emailId now hnow hdur
  have hq : calQuery [buildEventDetails s cd emailId now]
      (buildEventDetails s cd emailId now).startTime
      (buildEventDetails s cd emailId now).endTime =
      [buildEventDetails s cd emailId now] := by
    unfold calQuery
    simp [hlt]
  have hex : eventExists (buildEventDetails s cd emailId now)
      (Except.ok [buildEventDetails s cd emailId now]) = true := by
    unfold eventExists
    simp [strContains_leadingSegment]
  have hsnd : createClassEvent s cd emailId now
      [buildEventDetails s cd emailId now] none =
      (none, [buildEventDetails s cd emailId now]) := by
    unfold createClassEvent
    dsimp only
    rw [hq, hex]
    rfl
  refine ⟨fun events => rfl, ?_, ?_, ?_⟩
  · rw [hfst]
  · rw [hfst]
    dsimp only
    rw [hsnd]
  · rw [hfst]
    dsimp only
    rw [hsnd]

/-- Witness for C7 (amended): a concrete confirmed class with default
settings — the first materialization creates, the second skips. -/
theorem create_class_event_dedup_witness :
    DTOk (⟨2024, 3, 1, 9, 0⟩ : PyDateTime) ∧
    0 < effectiveDuration {}
      { class_name := some "Boxing Class", date := some "2024-03-15",
        time := some "18:15" } ∧
    ((createClassEvent {}
        { class_name := some "Boxing Class", date := some "2024-03-15",
          time := some "18:15" } "e1" ⟨2024, 3, 1, 9, 0⟩ [] none).1 =
      some (buildEventDetails {}
        { class_name := some "Boxing Class", date := some "2024-03-15",
          time := some "18:15" } "e1" ⟨2024, 3, 1, 9, 0⟩) ∧
     (createClassEvent {}
        { class_name := some "Boxing Class", date := some "2024-03-15",
          time := some "18:15" } "e1" ⟨2024, 3, 1, 9, 0⟩
        (createClassEvent {}
          { class_name := some "Boxing Class", date := some "2024-03-15",
            time := some "18:15" } "e1" ⟨2024, 3, 1, 9, 0⟩ [] none).2 none).1 =
      none) :=
  ⟨by decide, by decide,
   ((create_class_event_dedup {}
      { class_name := some "Boxing Class", date := some "2024-03-15",
        time := some "18:15" } "e1" ⟨2024, 3, 1, 9, 0⟩ (by decide) (by decide)).2.1),
   ((create_class_event_dedup {}
      { class_name := some "Boxing Class", date := some "2024-03-15",
        time := some "18:15" } "e1" ⟨2024, 3, 1, 9, 0⟩ (by decide) (by decide)).2.2.1)⟩

/-! ## Lemmas for the classifier adapter -/

theorem isPrefixOf_self (l : List Char) : l.isPrefixOf l = true := by
  induction l with
  | nil => rfl
  | cons c rest ih => simp [List.isPrefixOf, ih]

theorem listHasInfix_self (l : List Char) : listHasInfix l l = true := by
  cases l with
  | nil => rfl
  | cons c rest => unfold listHasInfix; rw [isPrefixOf_self]; rfl

theorem listHasInfix_append (a b : List Char) : listHasInfix b (a ++ b) = true := by
  induction a with
  | nil => exact listHasInfix_self b
  | cons c rest ih =>
      show listHasInfix b (c :: (rest ++ b)) = true
      unfold listHasInfix
      rw [ih]
      simp

/-- A concatenation contains its right part as a substring. -/
theorem strContains_append_right (a b : String) : strContains (a ++ b) b = true := by
  unfold strContains
  rw [String.data_append]
  exact listHasInfix_append a.data b.data

theorem getStrDefault_absent {kvs : List (String × Json)} {k d : String}
    (h : jlookup kvs k = none) : getStrDefault kvs k d = Except.ok d := by
  unfold getStrDefault
  rw [h]

theorem getStrDefault_str {kvs : List (String × Json)} {k d t : String}
    (h : jlookup kvs k = some (.jstr t)) : getStrDefault kvs k d = Except.ok t := by
  unfold getStrDefault
  rw [h]

/-- Inversion of a successful parse: the returned category and action fields
are exactly what `data.get("email_type", "other")` and
`data.get("action_required", "none")` produced. -/
theorem tryParse_ok_fields {jl : String → Option Json} {r : String}
    {kvs : List (String × Json)} {c : EmailClassification}
    (hj : jl (stripFences r) = some (.jobj kvs)) (hok : tryParse jl r = Except.ok c) :
    getStrDefault kvs "email_type" "other" = Except.ok c.email_type ∧
    getStrDefault kvs "action_required" "none" = Except.ok c.action_required := by
  unfold tryParse at hok
  rw [hj] at hok
  cases h1 : getClassDetails kvs with
  | error e => simp [h1, bind, Except.bind] at hok
  | ok v1 =>
    cases h2 : getConfidence kvs with
    | error e => simp [h1, h2, bind, Except.bind] at hok
    | ok v2 =>
      cases h3 : getStrDefault kvs "email_type" "other" with
      | error e => simp [h1, h2, h3, bind, Except.bind] at hok
      | ok v3 =>
        cases h4 : getStrDefault kvs "action_required" "none" with
        | error e => simp [h1, h2, h3, h4, bind, Except.bind] at hok
        | ok v4 =>
          cases h5 : getFormLinks kvs with
          | error e => simp [h1, h2, h3, h4, h5, bind, Except.bind] at hok
          | ok v5 =>
            cases h6 : getOptStr kvs "registration_url" with
            | error e => simp [h1, h2, h3, h4, h5, h6, bind, Except.bind] at hok
            | ok v6 =>
              cases h7 : getStrDefault kvs "reasoning" "" with
              | error e => simp [h1, h2, h3, h4, h5, h6, h7, bind, Except.bind] at hok
              | ok v7 =>
                simp only [h1, h2, h3, h4, h5, h6, h7, bind, Except.bind,
                  pure, Except.pure, Except.ok.injEq] at hok
                subst hok
                exact ⟨rfl, rfl⟩

/-! ## Claim theorems: classifier boundary -/

/-- C5 counterexample: a raw response whose `email_type` and
`action_required` are present but outside their enumerations is parsed
without coercion — the out-of-enum strings are propagated as-is into the
returned classification, contradicting the claimed normalization. -/
theorem parse_response_out_of_enum_cex :
    parseClassificationResponse
        (fun s =>
          if s = "resp" then
            some (.jobj [("email_type", .jstr "promo_blast"),
                         ("action_required", .jstr "forward")])
          else none) "resp" =
      Except.ok ⟨"promo_blast", 0, none, "forward", some [], none, ""⟩ ∧
    "promo_blast" ∉ ["registration_form", "confirmation", "cancellation",
      "waitlist", "other"] ∧
    "forward" ∉ ["register", "create_calendar", "cancel_event", "waitlist",
      "none"] := by
  exact ⟨rfl, by decide, by decide⟩

/-- C5 amended: `_parse_classification_response` substitutes the defaults
"other"/"none" only when the `email_type`/`action_required` keys are absent
from the parsed object; a present string value — in or out of the
enumeration — is propagated as-is into the returned classification. -/
theorem parse_response_default_only_when_absent (jl : String → Option Json)
    (r : String) (kvs : List (String × Json)) (c : EmailClassification)
    (hj : jl (stripFences r) = some (.jobj kvs))
    (hok : tryParse jl r = Except.ok c) :
    (jlookup kvs "email_type" = none → c.email_type = "other") ∧
    (∀ t, jlookup kvs "email_type" = some (.jstr t) → c.email_type = t) ∧
    (jlookup kvs "action_required" = none → c.action_required = "none") ∧
    (∀ t, jlookup kvs "action_required" = some (.jstr t) → c.action_required = t) := by
  obtain ⟨he, ha⟩ := tryParse_ok_fields hj hok
  refine ⟨?_, ?_, ?_, ?_⟩
  · intro h
    rw [getStrDefault_absent h] at he
    injection he with he
    exact he.symm
  · intro t h
    rw [getStrDefault_str h] at he
    injection he with he
    exact he.symm
  · intro h
    rw [getStrDefault_absent h] at ha
    injection ha with ha
    exact ha.symm
  · intro t h
    rw [getStrDefault_str h] at ha
    injection ha with ha
    exact ha.symm

/-- The C5 witness JSON reader: an object with `email_type` present (out of
enumeration) and `action_required` absent. -/
def cexLoads2 : String → Option Json := fun s =>
  if s = "r2" then some (.jobj [("email_type", .jstr "spam")]) else none

/-- Witness for C5 (amended): on a concrete object with `email_type` present
(out of enumeration) and `action_required` absent, the present value passes
through and the absent one defaults. -/
theorem parse_response_default_only_when_absent_witness :
    cexLoads2 (stripFences "r2") = some (Json.jobj [("email_type", Json.jstr "spam")]) ∧
    tryParse cexLoads2 "r2" =
      Except.ok ⟨"spam", 0, none, "none", some [], none, ""⟩ ∧
    (jlookup [("email_type", Json.jstr "spam")] "action_required" = none →
      (⟨"spam", 0, none, "none", some [], none, ""⟩ : EmailClassification).action_required = "none") ∧
    (∀ t, jlookup [("email_type", Json.jstr "spam")] "email_type" = some (.jstr t) →
      (⟨"spam", 0, none, "none", some [], none, ""⟩ : EmailClassification).email_type = t) :=
  ⟨rfl, rfl,
   (parse_response_default_only_when_absent cexLoads2 "r2"
     [("email_type", Json.jstr "spam")]
     ⟨"spam", 0, none, "none", some [], none, ""⟩ rfl rfl).2.2.1,
   (parse_response_default_only_when_absent cexLoads2 "r2"
     [("email_type", Json.jstr "spam")]
     ⟨"spam", 0, none, "none", some [], none, ""⟩ rfl rfl).2.1⟩

/-- Environment pieces for the C8 witness: a provider call answering
non-JSON text, and a JSON reader that fails on it. -/
def cexCall : String → Except String String := fun _ => Except.ok "certainly not JSON"

/-- The C8 witness JSON reader (fails on every input). -/
def cexLoads : String → Option Json := fun _ => none

/-- The C8 witness message. -/
def cexEmail : EmailMetadata :=
  ⟨"m1", "t1", "subject", "from@x.com", "to@x.com", "2024-03-15 10:00:00",
   "snip", "body"⟩

/-- C8: the classifier adapter never lets a parse failure escape.  Whenever
the raw response fails the defensive parse (any decode error, schema
violation, or attribute/type error inside it), `classify_email` returns the
fallback classification: `email_type = "other"`, `confidence = 0.0`,
`action_required = "none"`, and a reasoning string containing the parse
error.  (`classifyEmail` is a total function of the embedding: no exception
passes its boundary.) -/
theorem classify_email_fallback (call : String → Except String String)
    (jl : String → Option Json) (email : EmailMetadata) (resp : String)
    (err : PyErr)
    (hc : call (buildClassificationPrompt email) = Except.ok resp)
    (hp : tryParse jl resp = Except.error err) :
    (classifyEmail call jl email).email_type = "other" ∧
    (classifyEmail call jl email).confidence = 0 ∧
    (classifyEmail call jl email).action_required = "none" ∧
    strContains (classifyEmail call jl email).reasoning err.msg = true := by
  unfold classifyEmail
  rw [hc]
  dsimp only
  unfold parseClassificationResponse
  rw [hp]
  cases hcg : err.caught
  · simp [hcg, fallbackClassification, strContains_append_right]
  · simp [hcg, fallbackClassification, strContains_append_right]

/-- Witness for C8 at a concrete non-JSON response. -/
theorem classify_email_fallback_witness :
    cexCall (buildClassificationPrompt cexEmail) = Except.ok "certainly not JSON" ∧
    tryParse cexLoads "certainly not JSON" =
      Except.error (vErr "JSONDecodeError: Expecting value") ∧
    ((classifyEmail cexCall cexLoads cexEmail).email_type = "other" ∧
     (classifyEmail cexCall cexLoads cexEmail).confidence = 0 ∧
     (classifyEmail cexCall cexLoads cexEmail).action_required = "none" ∧
     strContains (classifyEmail cexCall cexLoads cexEmail).reasoning
       (vErr "JSONDecodeError: Expecting value").msg = true) :=
  ⟨rfl, rfl,
   classify_email_fallback cexCall cexLoads cexEmail "certainly not JSON"
     (vErr "JSONDecodeError: Expecting value") rfl rfl⟩

/-! ## Lemmas about the dispatcher -/

/-- A well-behaved mail collaborator: a fetched message carries the
identifier it was fetched by. -/
def FetchIdOk (env : Env) : Prop :=
  ∀ m meta, env.fetch m = Except.ok meta → meta.id = m

/-- Every effect a routing handler emits names the handled message. -/
theorem handle_effects_shape (s : Settings) (env : Env) (st : AgentStatus)
    (pe : ProcessedEmail) :
    ∀ e ∈ (handleClassifiedEmail s env st pe).2.1,
      e = Effect.extractCall pe.metadata.id ∨
        e = Effect.calendarCreate pe.metadata.id ∨
        e = Effect.markRead pe.metadata.id := by
  intro e he
  unfold handleClassifiedEmail handleRegistrationForm handleConfirmationEmail
    handleLogAndMarkRead at he
  dsimp only at he
  repeat' split at he
  all_goals simp_all
  all_goals tauto

/-- A routing handler never decreases the error counter. -/
theorem handle_errors_mono (s : Settings) (env : Env) (st : AgentStatus)
    (pe : ProcessedEmail) :
    st.errors_count ≤ (handleClassifiedEmail s env st pe).1.errors_count := by
  unfold handleClassifiedEmail handleRegistrationForm handleConfirmationEmail
    handleLogAndMarkRead
  dsimp only
  repeat' split
  all_goals dsimp only
  all_goals omega

/-- Processing a message already in the ledger does nothing. -/
theorem processEmail_mem {env : Env} {s : Settings} {st : AgentState} {m : String}
    (h : m ∈ st.processed_emails) : processEmail env s st m = (st, []) := by
  unfold processEmail
  rw [if_pos h]

/-- The ledger only grows under `process_email`. -/
theorem processEmail_ledger_mono (env : Env) (s : Settings) (st : AgentState)
    (m x : String) (hx : x ∈ st.processed_emails) :
    x ∈ (processEmail env s st m).1.processed_emails := by
  unfold processEmail
  split
  · exact hx
  · split
    · exact hx
    · dsimp only
      split
      · exact hx
      · exact List.mem_cons_of_mem _ hx

/-- Once `m` is in the ledger, no later `process_email` call (on any
message) emits a calendar-create effect for `m`. -/
theorem processEmail_no_create (env : Env) (s : Settings) (st : AgentState)
    (m m' : String) (hid : FetchIdOk env) (hm : m ∈ st.processed_emails) :
    ∀ e ∈ (processEmail env s st m').2, isCreateFor m e = false := by
  intro e he
  unfold processEmail at he
  split at he
  · simp at he
  · next hm' =>
      have hne : m' ≠ m := fun hEq => hm' (hEq ▸ hm)
      split at he
      · simp only [List.mem_cons, List.not_mem_nil, or_false] at he
        subst he
        rfl
      · next meta hf =>
          dsimp only at he
          have hidm : meta.id = m' := hid m' meta hf
          have hshape := handle_effects_shape s env st.status ⟨meta, env.classify meta⟩
          split at he
          all_goals rename_i heq
          all_goals rw [heq] at hshape
          all_goals dsimp only at hshape
          all_goals
            simp only [List.cons_append, List.nil_append, List.mem_cons,
              List.mem_append] at he
            rcases he with rfl | rfl | he
            · rfl
            · rfl
            · rcases hshape e he with rfl | rfl | rfl
              · rfl
              · show decide (meta.id = m) = false
                rw [hidm]
                exact decide_eq_false hne
              · rfl

/-- The ledger only grows under a batch. -/
theorem processBatch_ledger_mono (env : Env) (s : Settings) (st : AgentState)
    (ms : List String) (x : String) (hx : x ∈ st.processed_emails) :
    x ∈ (processBatch env s st ms).1.processed_emails := by
  induction ms generalizing st with
  | nil => exact hx
  | cons m rest ih =>
      simp only [processBatch]
      exact ih _ (processEmail_ledger_mono env s st m x hx)

/-- Once `m` is in the ledger, a batch emits no calendar-create for `m`. -/
theorem processBatch_no_create (env : Env) (s : Settings) (st : AgentState)
    (ms : List String) (m : String) (hid : FetchIdOk env)
    (hm : m ∈ st.processed_emails) :
    ∀ e ∈ (processBatch env s st ms).2, isCreateFor m e = false := by
  induction ms generalizing st with
  | nil => intro e he; simp [processBatch] at he
  | cons m' rest ih =>
      intro e he
      simp only [processBatch, List.mem_append] at he
      rcases he with he | he
      · exact processEmail_no_create env s st m m' hid hm e he
      · exact ih (processEmail env s st m').1
          (processEmail_ledger_mono env s st m' m hm) e he

/-- The ledger only grows under a poll tick. -/
theorem checkForNewEmails_ledger_mono (env : Env) (s : Settings) (st : AgentState)
    (sr : Except String (List String)) (tk : Nat) (x : String)
    (hx : x ∈ st.processed_emails) :
    x ∈ (checkForNewEmails env s st sr tk).1.processed_emails := by
  unfold checkForNewEmails
  cases sr with
  | error e => exact hx
  | ok msgs =>
      dsimp only
      exact processBatch_ledger_mono env s st _ x hx

/-- Once `m` is in the ledger, a poll tick emits no calendar-create for
`m`. -/
theorem checkForNewEmails_no_create (env : Env) (s : Settings) (st : AgentState)
    (sr : Except String (List String)) (tk : Nat) (m : String)
    (hid : FetchIdOk env) (hm : m ∈ st.processed_emails) :
    ∀ e ∈ (checkForNewEmails env s st sr tk).2, isCreateFor m e = false := by
  unfold checkForNewEmails
  cases sr with
  | error e => intro e he; simp at he
  | ok msgs =>
      dsimp only
      exact processBatch_no_create env s st _ m hid hm

/-- Ledger membership and create-freedom for `m` persist over any run of
poll ticks. -/
theorem runTicks_ledger (env : Env) (s : Settings) (st : AgentState)
    (ticks : List (Except String (List String) × Nat)) (m : String)
    (hid : FetchIdOk env) (hm : m ∈ st.processed_emails) :
    m ∈ (runTicks env s st ticks).1.processed_emails ∧
      ∀ e ∈ (runTicks env s st ticks).2, isCreateFor m e = false := by
  induction ticks generalizing st with
  | nil =>
      refine ⟨hm, ?_⟩
      intro e he
      simp [runTicks] at he
  | cons t rest ih =>
      obtain ⟨sr, tk⟩ := t
      have hm1 := checkForNewEmails_ledger_mono env s st sr tk m hm
      obtain ⟨ihm, ihc⟩ := ih (checkForNewEmails env s st sr tk).1 hm1
      refine ⟨ihm, ?_⟩
      intro e he
      simp only [runTicks, List.mem_append] at he
      rcases he with he | he
      · exact checkForNewEmails_no_create env s st sr tk m hid hm e he
      · exact ihc e he

/-- Does the body of `process_email` raise for message `m` in state `st`
(a fetch error, or an exception escaping `_handle_classified_email`)? -/
def processRaises (env : Env) (s : Settings) (st : AgentState) (m : String) : Bool :=
  match env.fetch m with
  | .error _ => true
  | .ok meta =>
      (handleClassifiedEmail s env st.status ⟨meta, env.classify meta⟩).2.2.isSome

/-! ## Claim theorems: dispatcher -/

/-- C1: idempotency per message identifier.  If `m` is already in the
processed-set ledger, `process_email(m)` returns immediately: no fetch, no
classification call, no handler, no calendar creation, state (ledger and
all counters) unchanged.  Consequently, over any run of poll ticks (with a
mail collaborator that returns messages under their own identifiers), `m`
stays in the ledger with the same outcome and no calendar-create call for
`m` is ever made again. -/
theorem process_email_idempotent (env : Env) (s : Settings) (st : AgentState)
    (m : String) (hid : FetchIdOk env) (h : m ∈ st.processed_emails) :
    processEmail env s st m = (st, []) ∧
    ∀ ticks, m ∈ (runTicks env s st ticks).1.processed_emails ∧
      ∀ e ∈ (runTicks env s st ticks).2, isCreateFor m e = false := by
  refine ⟨processEmail_mem h, ?_⟩
  intro ticks
  exact runTicks_ledger env s st ticks m hid h

/-- C2 counterexample: with a mail collaborator whose fetch raises, the
error is counted — but the message identifier is NOT added to the
processed-set ledger, contradicting the claim that every error path still
marks the message processed. -/
theorem process_email_error_cex :
    ((processEmail
        { fetch := fun _ => Except.error "network down",
          classify := fun _ => fallbackClassification "n/a",
          extractGoogleForms := fun _ => none,
          markAsRead := fun _ => Except.ok (),
          createEvent := fun _ _ => Except.ok none }
        {} {} "m1").1.status.errors_count = 1) ∧
    "m1" ∉ (processEmail
        { fetch := fun _ => Except.error "network down",
          classify := fun _ => fallbackClassification "n/a",
          extractGoogleForms := fun _ => none,
          markAsRead := fun _ => Except.ok (),
          createEvent := fun _ _ => Except.ok none }
        {} {} "m1").1.processed_emails := by
  exact ⟨rfl, by decide⟩

/-- C2 amended: for every message whose fetch or handling raises, the error
is counted (the error counter strictly increases) but the message
identifier is NOT added to the ledger — the ledger is unchanged, so the
same message is re-offered and re-attempted on subsequent poll ticks; a
failed message gets no ledger entry. -/
theorem process_email_error_no_ledger (env : Env) (s : Settings)
    (st : AgentState) (m : String) (hm : m ∉ st.processed_emails)
    (herr : processRaises env s st m = true) :
    (processEmail env s st m).1.processed_emails = st.processed_emails ∧
    st.status.errors_count < (processEmail env s st m).1.status.errors_count := by
  unfold processRaises at herr
  unfold processEmail
  rw [if_neg hm]
  cases hf : env.fetch m with
  | error e => exact ⟨rfl, by dsimp only; omega⟩
  | ok meta =>
      rw [hf] at herr
      dsimp only at herr
      dsimp only
      have hmono := handle_errors_mono s env st.status ⟨meta, env.classify meta⟩
      split
      · next st1 effs w heq =>
          rw [heq] at hmono
          dsimp only at hmono
          exact ⟨rfl, by dsimp only; omega⟩
      · next st1 effs heq =>
          rw [heq] at herr
          simp at herr

/-- Witness mail/classifier environment: fetch echoes the identifier, the
classifier returns a low-confidence confirmation. -/
def wEnv : Env :=
  { fetch := fun i =>
      Except.ok ⟨i, "t1", "Class update", "gym@x.com", "me@x.com",
        "2024-03-15 10:00:00", "snip", "body"⟩
    classify := fun _ =>
      ⟨"confirmation", 0, none, "create_calendar", none, none, "uncertain"⟩
    extractGoogleForms := fun _ => none
    markAsRead := fun _ => Except.ok ()
    createEvent := fun _ _ => Except.ok none }

theorem wEnv_fetch_id : FetchIdOk wEnv := by
  intro m meta h
  injection h with h
  subst h
  rfl

/-- Witness starting state with "m1" already in the ledger. -/
def c1St : AgentState := { processed_emails := ["m1"] }

/-- Witness for C1: with "m1" already processed, reprocessing is a no-op and
a poll tick re-offering "m1" leaves it in the ledger. -/
theorem process_email_idempotent_witness :
    FetchIdOk wEnv ∧ "m1" ∈ c1St.processed_emails ∧
    processEmail wEnv {} c1St "m1" = (c1St, []) ∧
    "m1" ∈ (runTicks wEnv {} c1St
        [(Except.ok ["m1", "m2"], 1)]).1.processed_emails :=
  ⟨wEnv_fetch_id, by decide,
   (process_email_idempotent wEnv {} c1St "m1" wEnv_fetch_id (by decide)).1,
   ((process_email_idempotent wEnv {} c1St "m1" wEnv_fetch_id (by decide)).2
     [(Except.ok ["m1", "m2"], 1)]).1⟩

/-- Witness environment for C2: a confidently classified cancellation whose
mark-as-read call raises. -/
def w2Env : Env :=
  { fetch := fun i =>
      Except.ok ⟨i, "t1", "Cancelled: boxing", "gym@x.com", "me@x.com",
        "d", "sn", "b"⟩
    classify := fun _ =>
      ⟨"cancellation", 1, none, "cancel_event", none, none, "clear"⟩
    extractGoogleForms := fun _ => none
    markAsRead := fun _ => Except.error "gmail 500"
    createEvent := fun _ _ => Except.ok none }

/-- Witness for C2 (amended): a handler exception is counted and the
message is left out of the ledger. -/
theorem process_email_error_no_ledger_witness :
    "m7" ∉ ({} : AgentState).processed_emails ∧
    processRaises w2Env { confidence_threshold := 0 } {} "m7" = true ∧
    ((processEmail w2Env { confidence_threshold := 0 } {} "m7").1.processed_emails =
        ({} : AgentState).processed_emails ∧
     ({} : AgentState).status.errors_count <
        (processEmail w2Env { confidence_threshold := 0 } {} "m7").1.status.errors_count) :=
  ⟨by decide, by decide,
   process_email_error_no_ledger w2Env { confidence_threshold := 0 } {} "m7"
     (by decide) (by decide)⟩

/-- C4: the confidence gate.  When the classification's confidence is
strictly below the threshold, `_handle_classified_email` invokes no routing
handler — no mark-as-read, no secondary extraction, no calendar-create call,
no counter change — and `process_email` still adds the identifier to the
ledger and bumps only the processed counter. -/
theorem confidence_gate (env : Env) (s : Settings) (st : AgentState)
    (m : String) (meta : EmailMetadata) (hm : m ∉ st.processed_emails)
    (hf : env.fetch m = Except.ok meta)
    (hc : (env.classify meta).confidence < s.confidence_threshold) :
    processEmail env s st m =
      ({ processed_emails := m :: st.processed_emails,
         status := { st.status with
           processed_emails_count := st.status.processed_emails_count + 1 } },
       [Effect.fetchCall m, Effect.classifyCall]) := by
  have hh : handleClassifiedEmail s env st.status ⟨meta, env.classify meta⟩ =
      (st.status, [], none) := by
    unfold handleClassifiedEmail
    dsimp only
    rw [if_pos hc]
  unfold processEmail
  rw [if_neg hm, hf]
  dsimp only
  rw [hh]
  rfl

/-- Witness environment for C4: a classification at confidence 0 against
the default threshold 0.7. -/
def w4Env : Env :=
  { fetch := fun i =>
      Except.ok ⟨i, "t1", "FYI", "gym@x.com", "me@x.com", "d", "sn", "b"⟩
    classify := fun _ =>
      ⟨"confirmation", 0, none, "create_calendar", none, none, "guess"⟩
    extractGoogleForms := fun _ => none
    markAsRead := fun _ => Except.ok ()
    createEvent := fun _ _ => Except.ok none }

/-- Witness for C4: the gated message produces only the fetch and classify
calls and lands in the ledger. -/
theorem confidence_gate_witness :
    "m9" ∉ ({} : AgentState).processed_emails ∧
    w4Env.fetch "m9" =
      Except.ok ⟨"m9", "t1", "FYI", "gym@x.com", "me@x.com", "d", "sn", "b"⟩ ∧
    (w4Env.classify
        ⟨"m9", "t1", "FYI", "gym@x.com", "me@x.com", "d", "sn", "b"⟩).confidence <
      ({} : Settings).confidence_threshold ∧
    processEmail w4Env {} {} "m9" =
      ({ processed_emails := ["m9"],
         status := { processed_emails_count := 1 } },
       [Effect.fetchCall "m9", Effect.classifyCall]) :=
  ⟨by decide, rfl, by show (0 : ℚ) < 7 / 10; norm_num,
   confidence_gate w4Env {} {} "m9"
     ⟨"m9", "t1", "FYI", "gym@x.com", "me@x.com", "d", "sn", "b"⟩ (by decide) rfl
     (by show (0 : ℚ) < 7 / 10; norm_num)⟩
